import Mathlib

/-!
Verification of the tradieralpaca strategy parameter engine, order retry
controller and batch orchestrator.

Shallow embedding conventions:
- Python floats are modelled as exact rationals (all prices, strikes and
  offsets in the source are small decimal values; no claim depends on
  binary floating-point rounding).
- Dates are modelled as integer day numbers with day 0 falling on a Monday,
  so that `d % 7` agrees with Python `date.weekday()` (Monday = 0,
  Friday = 4).  A `timedelta(weeks = w)` is `7 * w` days.
- Functions that raise `ValueError` are modelled as `Option`-returning
  functions (`none` = exception).
- The broker collaborator is modelled as an oracle parameter: the n-th
  submission attempt yields `submit n`, either an `OrderResult` or a raised
  exception message.
- Strings are assumed ASCII (stock symbols and broker error messages);
  `str.lower` / `str.isupper` / `str.isalpha` are modelled with the
  corresponding ASCII character predicates.
-/

/-- Python `str.lower()` restricted to ASCII, as a character map. -/
def pyLower (s : String) : String :=
  String.mk (s.toList.map Char.toLower)

/-- Python `str.isupper()`: at least one cased character and no lowercase
cased character (ASCII: cased = alphabetic). -/
def pyIsUpper (s : String) : Bool :=
  s.toList.any (fun c => c.isAlpha) && s.toList.all (fun c => !c.isAlpha || c.isUpper)

/-- Python `str.isalpha()`: nonempty and every character alphabetic. -/
def pyIsAlphaStr (s : String) : Bool :=
  !s.toList.isEmpty && s.toList.all (fun c => c.isAlpha)

/-- Python substring test `needle in hay`. -/
def pyContainsSub (needle hay : String) : Bool :=
  decide (needle.toList <:+: hay.toList)

/-- Python f-string rendering of an `Optional[str]`: `None` renders as the
literal string `None`. -/
def pyOptStr : Option String → String
  | none => "None"
  | some s => s

/-- Python `max` over a possibly empty list of rationals (`none` models the
`ValueError` raised on an empty list). -/
def pyListMax : List ℚ → Option ℚ
  | [] => none
  | x :: xs => some (xs.foldl max x)

/-- Python `min` over a possibly empty list of rationals. -/
def pyListMin : List ℚ → Option ℚ
  | [] => none
  | x :: xs => some (xs.foldl min x)

/-! ## Dates and expiration rules

Source: `src/strategy/strategy_calculator.py` lines 98-130 and the
`calculate_expiration` methods of the calculators in
`src/strategy/collar_strategy.py`. -/

/-- Python `date.weekday()`: Monday = 0, ..., Friday = 4, Sunday = 6
(day 0 of the integer-day model is a Monday). -/
def weekday (d : ℤ) : ℤ := d % 7

/-- Source: `StrategyCalculator.calculate_expiration_date`
(strategy_calculator.py lines 98-130).  `none` models the `ValueError` on a
non-positive `offset_weeks`.  Computes `target = execution_date + offset
weeks` and returns `target` when it is a Friday, otherwise `target` plus
`(4 - target.weekday()) % 7` days (the next Friday). -/
def calculate_expiration_date (executionDate offsetWeeks : ℤ) : Option ℤ :=
  if offsetWeeks ≤ 0 then none
  else
    let target := executionDate + 7 * offsetWeeks
    let daysUntilFriday := (4 - target % 7) % 7
    if target % 7 = 4 then some target
    else some (target + daysUntilFriday)

/-- Source: the `calculate_expiration` method shared verbatim by
`WheelCalculator`, `ButterflyCalculator`, `MarriedPutCalculator`,
`LongStraddleCalculator`, `IronButterflyCalculator`,
`ShortStrangleCalculator` and `IronCondorCalculator` in
collar_strategy.py: target = from_date + expiration_days; return target if
it is a Friday, otherwise the closer of the next Friday and the Friday one
week before it, the earlier one only when it is at least one day after
from_date. -/
def nearest_friday_expiration (fromDate expirationDays : ℤ) : ℤ :=
  let target := fromDate + expirationDays
  let daysUntilFriday := (4 - target % 7) % 7
  if target % 7 = 4 then target
  else
    let fridayAfter := target + daysUntilFriday
    let fridayBefore := fridayAfter - 7
    if fridayBefore ≥ fromDate + 1 then
      if (fridayBefore - target).natAbs ≤ (fridayAfter - target).natAbs then fridayBefore
      else fridayAfter
    else fridayAfter

/-- Source: `CoveredCallCalculator.calculate_expiration`
(collar_strategy.py lines 324-358).  Identical to
`nearest_friday_expiration` except for the extra (dead) adjustment
`if days_until_friday == 0 and target.weekday() != 4: days_until_friday = 7`
on lines 343-344, which is reproduced here. -/
def covered_call_calculate_expiration (expirationDays fromDate : ℤ) : ℤ :=
  let target := fromDate + expirationDays
  let duf0 := (4 - target % 7) % 7
  let daysUntilFriday := if duf0 = 0 ∧ ¬target % 7 = 4 then 7 else duf0
  if target % 7 = 4 then target
  else
    let fridayAfter := target + daysUntilFriday
    let fridayBefore := fridayAfter - 7
    if fridayBefore ≥ fromDate + 1 then
      if (fridayBefore - target).natAbs ≤ (fridayAfter - target).natAbs then fridayBefore
      else fridayAfter
    else fridayAfter

/-- The first Friday strictly after day `t`. -/
def friday_strictly_after (t : ℤ) : ℤ :=
  (t + 1) + (4 - (t + 1) % 7) % 7

/-- The first Friday at or after day `t`. -/
def next_friday_on_or_after (t : ℤ) : ℤ :=
  t + (4 - t % 7) % 7

/-- Modelled from the spec's words (the shared expiration rule of claim C1):
target = today + offset days; if target is a Friday return it; otherwise
form the Friday strictly after target and the Friday exactly one week
earlier, and return whichever is closer to target, using the earlier
Friday only when it is at least one day after today.  (The two distances
are never equal, so the tie-break is immaterial.) -/
def spec_expiration_rule (today offsetDays : ℤ) : ℤ :=
  let target := today + offsetDays
  if target % 7 = 4 then target
  else
    let fridayAfter := friday_strictly_after target
    let fridayBefore := fridayAfter - 7
    if fridayBefore ≥ today + 1 then
      if (fridayBefore - target).natAbs ≤ (fridayAfter - target).natAbs then fridayBefore
      else fridayAfter
    else fridayAfter

/-! ## Strike resolver

Source: `StrategyCalculator.find_nearest_strike_below`
(strategy_calculator.py lines 154-183) and the private
`_find_nearest_strike_below` / `_find_nearest_strike_above` of
`IronCondorCalculator` (collar_strategy.py lines 1663-1675). -/

/-- Source: `StrategyCalculator.find_nearest_strike_below`
(strategy_calculator.py lines 154-183).  Raises (returns `none`) when the
strike list is empty, when the target is not positive, or when no strike is
at or below the target; otherwise returns the largest strike at or below
the target. -/
def find_nearest_strike_below (targetStrike : ℚ) (availableStrikes : List ℚ) : Option ℚ :=
  if availableStrikes.isEmpty then none
  else if targetStrike ≤ 0 then none
  else pyListMax (availableStrikes.filter (fun s => decide (s ≤ targetStrike)))

/-- Source: `IronCondorCalculator._find_nearest_strike_below`
(collar_strategy.py lines 1663-1668); no positivity guard on the target. -/
def ic_find_nearest_strike_below (target : ℚ) (availableStrikes : List ℚ) : Option ℚ :=
  pyListMax (availableStrikes.filter (fun s => decide (s ≤ target)))

/-- Source: `IronCondorCalculator._find_nearest_strike_above`
(collar_strategy.py lines 1670-1675). -/
def ic_find_nearest_strike_above (target : ℚ) (availableStrikes : List ℚ) : Option ℚ :=
  pyListMin (availableStrikes.filter (fun s => decide (target ≤ s)))

/-- Source: `IronCondorCalculator.calculate_strikes` (collar_strategy.py
lines 1626-1661).  `none` models every raised `ValueError` (empty chain,
no strike on the required side, or violated ordering of the long strikes
against the short strikes). -/
def iron_condor_calculate_strikes (putSpreadOffsetPercent callSpreadOffsetPercent spreadWidth currentPrice : ℚ)
    (availableStrikes : List ℚ) : Option (ℚ × ℚ × ℚ × ℚ) :=
  if availableStrikes.isEmpty then none
  else
    match ic_find_nearest_strike_below (currentPrice * (1 - putSpreadOffsetPercent / 100)) availableStrikes with
    | none => none
    | some putShortStrike =>
      match ic_find_nearest_strike_above (currentPrice * (1 + callSpreadOffsetPercent / 100)) availableStrikes with
      | none => none
      | some callShortStrike =>
        match ic_find_nearest_strike_below (putShortStrike - spreadWidth) availableStrikes with
        | none => none
        | some putLongStrike =>
          match ic_find_nearest_strike_above (callShortStrike + spreadWidth) availableStrikes with
          | none => none
          | some callLongStrike =>
            if putLongStrike ≥ putShortStrike then none
            else if callLongStrike ≤ callShortStrike then none
            else some (putLongStrike, putShortStrike, callShortStrike, callLongStrike)

/-! ## Ladder allocator

Source: `LadderedCoveredCallCalculator` (collar_strategy.py lines
556-691).  The `coverage` parameter is the source's `coverage_ratio`
(default 0.667) and `numLegs` is `num_legs` (default 5). -/

/-- Source: `LadderedCoveredCallCalculator.calculate_total_contracts`
(collar_strategy.py lines 619-621): `int((shares_owned * coverage_ratio)
// 100)`; float floor-division followed by `int` of an integral float is
the rational floor. -/
def calculate_total_contracts (coverage : ℚ) (sharesOwned : ℕ) : ℤ :=
  ⌊(sharesOwned * coverage) / 100⌋

/-- Source: `LadderedCoveredCallCalculator.calculate_contracts_per_leg`
(collar_strategy.py lines 600-617).  When `total < num_legs` the result is
1 if any contracts are available, else 0; otherwise integer division.
(With `numLegs = 0` and a nonnegative total the source would raise
`ZeroDivisionError`; every theorem below assumes `1 ≤ numLegs`.) -/
def calculate_contracts_per_leg (coverage : ℚ) (numLegs sharesOwned : ℕ) : ℤ :=
  let totalContracts := calculate_total_contracts coverage sharesOwned
  if totalContracts < numLegs then (if totalContracts > 0 then 1 else 0)
  else totalContracts / numLegs

/-- Source: `LadderedCoveredCallCalculator.calculate_expirations`
(collar_strategy.py lines 623-651): `num_legs` consecutive Fridays starting
from the first Friday strictly after `from_date`. -/
def calculate_expirations (numLegs : ℕ) (fromDate : ℤ) : List ℤ :=
  let duf0 := (4 - fromDate % 7) % 7
  let daysUntilFriday := if duf0 = 0 then 7 else duf0
  let firstFriday := fromDate + daysUntilFriday
  (List.range numLegs).map (fun i : ℕ => firstFriday + 7 * (i : ℤ))

/-- Source: the leg-allocation loop of
`LadderedCoveredCallCalculator.calculate_ladder` (collar_strategy.py lines
669-683).  Each entry is `(leg number, expiration, contracts)`; the last
leg takes the whole remainder, earlier legs take `min(per_leg, remaining)`,
and legs with no contracts are omitted (and do not decrement the
remainder). -/
def ladder_loop (perLeg : ℤ) (remaining : ℤ) (i : ℕ) : List ℤ → List (ℕ × ℤ × ℤ)
  | [] => []
  | e :: rest =>
    let legContracts := if rest.isEmpty then remaining else min perLeg remaining
    if legContracts > 0 then
      (i + 1, e, legContracts) :: ladder_loop perLeg (remaining - legContracts) (i + 1) rest
    else ladder_loop perLeg remaining (i + 1) rest

/-- Source: `LadderedCoveredCallCalculator.calculate_ladder`
(collar_strategy.py lines 653-683).  The current price argument of the
source is unused by the allocation and omitted here. -/
def calculate_ladder (coverage : ℚ) (numLegs sharesOwned : ℕ) (fromDate : ℤ) : List (ℕ × ℤ × ℤ) :=
  ladder_loop (calculate_contracts_per_leg coverage numLegs sharesOwned)
    (calculate_total_contracts coverage sharesOwned) 0 (calculate_expirations numLegs fromDate)

/-! ## Order manager

Source: `src/order/order_manager.py` and the `OrderResult` / `SpreadOrder`
records of `src/brokers/base_client.py`. -/

/-- Source: `OrderResult` (base_client.py lines 29-35). -/
structure OrderResult where
  success : Bool
  order_id : Option String
  status : Option String
  error_message : Option String
deriving DecidableEq

/-- Source: `SpreadOrder` (base_client.py lines 17-26); the order type and
time-in-force fields are constant in the core and omitted. -/
structure SpreadOrder where
  symbol : String
  short_strike : ℚ
  long_strike : ℚ
  expiration : ℤ
  quantity : ℤ
deriving DecidableEq

/-- Source: `OrderManager.validate_order` (order_manager.py lines 84-137).
The numeric interpolations inside some failure messages are dropped (only
the fixed text is kept); no claim depends on them.  `today` stands for
`date.today()`; the Python guard `not symbol or not symbol.strip()` holds
exactly when every character is whitespace (including the empty string). -/
def validate_order (today : ℤ) (order : SpreadOrder) : Bool × Option String :=
  if order.symbol = "" ∨ order.symbol.toList.all (fun c => c.isWhitespace) then
    (false, some "Symbol cannot be empty")
  else if ¬pyIsUpper order.symbol then
    (false, some ("Symbol '" ++ order.symbol ++ "' must be uppercase"))
  else if order.short_strike ≤ 0 then
    (false, some "Short strike must be positive")
  else if order.long_strike ≤ 0 then
    (false, some "Long strike must be positive")
  else if order.short_strike ≤ order.long_strike then
    (false, some "Short strike must be higher than long strike for put credit spread")
  else if order.short_strike - order.long_strike ≤ 0 then
    (false, some "Spread width must be positive")
  else if order.quantity ≤ 0 then
    (false, some "Quantity must be positive")
  else if order.expiration < today then
    (false, some "Expiration date must be in the future")
  else (true, none)

/-- Source: the `non_retryable_keywords` list of
`OrderManager._is_retryable_error` (order_manager.py lines 298-306). -/
def non_retryable_keywords : List String :=
  ["insufficient", "invalid strike", "invalid symbol", "not found",
   "unauthorized", "forbidden", "rejected"]

/-- Source: `OrderManager._is_retryable_error` (order_manager.py lines
283-313).  A `None` or empty message is retryable (Python truthiness of
`error_message`); otherwise the message is retryable exactly when its
lowercasing contains none of the non-retryable keywords. -/
def is_retryable_error (errorMessage : Option String) : Bool :=
  match errorMessage with
  | none => true
  | some s =>
    if s = "" then true
    else
      let errorLower := pyLower s
      !(non_retryable_keywords.any (fun kw => pyContainsSub kw errorLower))

/-- Modelled from the spec's words (claim C4): a message is terminal when
it contains one of the seven keywords case-insensitively; an absent
message is never terminal. -/
def spec_is_terminal (errorMessage : Option String) : Bool :=
  match errorMessage with
  | none => false
  | some s => non_retryable_keywords.any (fun kw => pyContainsSub kw (pyLower s))

/-- One submission attempt either yields an `OrderResult` or raises an
exception rendered as a message string (order_manager.py lines 169-264). -/
inductive SubmitOutcome where
  | res : OrderResult → SubmitOutcome
  | exn : String → SubmitOutcome
deriving DecidableEq

/-- Source: the simulated dry-run success (order_manager.py lines 184-189);
`ts` stands for the formatted `datetime.now()` string. -/
def dry_run_result (symbol ts : String) : OrderResult :=
  { success := true, order_id := some ("DRY-RUN-" ++ symbol ++ "-" ++ ts),
    status := some "simulated", error_message := none }

/-- Source: the result built after the retry loop exhausts (order_manager.py
lines 276-281). -/
def max_retries_exceeded_result (maxRetries : ℕ) (lastError : Option String) : OrderResult :=
  { success := false, order_id := none, status := some "max_retries_exceeded",
    error_message := some ("Failed after " ++ toString maxRetries ++
      " attempts. Last error: " ++ pyOptStr lastError) }

/-- Source: the `while attempt < max_retries` loop of
`OrderManager.retry_order` (order_manager.py lines 163-281).  Returns the
final `OrderResult`, the number of submission attempts performed, and the
list of backoff sleeps (in seconds, in order).  `submit n` is the broker
outcome of the n-th attempt (1-based); in dry-run mode the attempt is the
simulated success instead and no broker call occurs. -/
def retry_order_loop (dryRun : Bool) (symbol ts : String) (submit : ℕ → SubmitOutcome)
    (maxRetries attempt : ℕ) (lastError : Option String) : OrderResult × ℕ × List ℕ :=
  if attempt < maxRetries then
    let a := attempt + 1
    let outcome := if dryRun then SubmitOutcome.res (dry_run_result symbol ts) else submit a
    match outcome with
    | SubmitOutcome.res r =>
      if r.success then (r, 1, [])
      else if !is_retryable_error r.error_message then (r, 1, [])
      else if a < maxRetries then
        let next := retry_order_loop dryRun symbol ts submit maxRetries a r.error_message
        (next.1, next.2.1 + 1, 2 ^ (a - 1) :: next.2.2)
      else
        let next := retry_order_loop dryRun symbol ts submit maxRetries a r.error_message
        (next.1, next.2.1 + 1, next.2.2)
    | SubmitOutcome.exn msg =>
      if a < maxRetries then
        let next := retry_order_loop dryRun symbol ts submit maxRetries a (some msg)
        (next.1, next.2.1 + 1, 2 ^ (a - 1) :: next.2.2)
      else
        let next := retry_order_loop dryRun symbol ts submit maxRetries a (some msg)
        (next.1, next.2.1 + 1, next.2.2)
  else
    (max_retries_exceeded_result maxRetries lastError, 0, [])
termination_by maxRetries - attempt

/-- Source: `OrderManager.retry_order` (order_manager.py lines 139-281):
validate once, short-circuit with status `validation_failed` on failure
(zero attempts, zero sleeps), otherwise run the retry loop. -/
def retry_order (dryRun : Bool) (ts : String) (today : ℤ) (order : SpreadOrder)
    (submit : ℕ → SubmitOutcome) (maxRetries : ℕ) : OrderResult × ℕ × List ℕ :=
  match validate_order today order with
  | (false, errMsg) =>
    ({ success := false, order_id := none, status := some "validation_failed",
       error_message := errMsg }, 0, [])
  | (true, _) => retry_order_loop dryRun order.symbol ts submit maxRetries 0 none

/-! ## Trade results

Source: `TradeResult` (order_manager.py lines 11-23) and the constructions
in `submit_order_with_error_handling` (order_manager.py lines 356-367),
`TradingBot.process_covered_call_symbol` (trading_bot.py lines 1128-1153)
and `TradingBot.process_wheel_symbol` (trading_bot.py lines 1245-1292).
Timestamps are opaque and modelled as integers. -/

/-- Source: `TradeResult` (order_manager.py lines 11-23). -/
structure TradeResult where
  symbol : String
  success : Bool
  order_id : Option String
  short_strike : ℚ
  long_strike : ℚ
  expiration : ℤ
  quantity : ℤ
  filled_price : Option ℚ
  error_message : Option String
  timestamp : ℤ
deriving DecidableEq

/-- The spec's TradeResult invariant (claim C2): success implies the order
id is present, failure implies the error message is present, and exactly
one of the two is present. -/
def trade_result_invariant (t : TradeResult) : Prop :=
  (t.success = true → t.order_id.isSome = true) ∧
  (t.success = false → t.error_message.isSome = true) ∧
  (t.order_id.isSome = true ↔ t.error_message.isSome = false)

/-- A broker `OrderResult` is well-formed when success carries an order id
and no error message, and failure carries an error message and no order
id. -/
def order_result_well_formed (r : OrderResult) : Prop :=
  (r.success = true → r.order_id.isSome = true ∧ r.error_message = none) ∧
  (r.success = false → r.order_id = none ∧ r.error_message.isSome = true)

/-- Source: the `TradeResult` built by
`OrderManager.submit_order_with_error_handling` from the `retry_order`
result (order_manager.py lines 356-367). -/
def trade_result_of_order_result (symbol : String) (shortStrike longStrike : ℚ)
    (expiration quantity ts : ℤ) (r : OrderResult) : TradeResult :=
  { symbol := symbol, success := r.success, order_id := r.order_id,
    short_strike := shortStrike, long_strike := longStrike,
    expiration := expiration, quantity := quantity, filled_price := none,
    error_message := r.error_message, timestamp := ts }

/-- Source: the two `TradeResult` constructions of
`TradingBot.process_covered_call_symbol` (trading_bot.py lines 1128-1153):
on success the error message is cleared, on failure the order id is
cleared. -/
def covered_call_trade_result (symbol : String) (callStrike : ℚ)
    (expiration numContracts ts : ℤ) (r : OrderResult) : TradeResult :=
  if r.success then
    { symbol := symbol, success := true, order_id := r.order_id,
      short_strike := callStrike, long_strike := 0, expiration := expiration,
      quantity := numContracts, filled_price := none, error_message := none,
      timestamp := ts }
  else
    { symbol := symbol, success := false, order_id := none,
      short_strike := callStrike, long_strike := 0, expiration := expiration,
      quantity := numContracts, filled_price := none,
      error_message := r.error_message, timestamp := ts }

/-- Source: the `TradeResult` built by `TradingBot.process_wheel_symbol`
(trading_bot.py lines 1245-1256 and 1281-1292): success flag, order id and
error message are copied from the broker result unchanged. -/
def wheel_trade_result (symbol : String) (strike : ℚ)
    (expiration numContracts ts : ℤ) (r : OrderResult) : TradeResult :=
  { symbol := symbol, success := r.success, order_id := r.order_id,
    short_strike := strike, long_strike := 0, expiration := expiration,
    quantity := numContracts, filled_price := none,
    error_message := r.error_message, timestamp := ts }

/-- Source: the success `OrderResult` built by
`TradierClient.submit_covered_call_order` (tradier_client.py lines
798-803): `order_id = str(order_id) if order_id else None`, so a success
response lacking an id yields `success = True` with `order_id = None`. -/
def tradier_submit_success (maybeOrderId : Option String) : OrderResult :=
  { success := true, order_id := maybeOrderId, status := some "submitted",
    error_message := none }

/-! ## Batch orchestrator

Source: `TradingBot.execute_trading_cycle` (trading_bot.py lines 284-426)
and `TradingBot._validate_symbol` (trading_bot.py lines 428-500).  The
per-strategy processor is an oracle `process`: it returns one
`TradeResult` (every strategy except the laddered one), a list of
results (the laddered strategy), or raises an exception summarised by a
`PyExn`. -/

/-- An uncaught Python exception: `type(e).__name__` and `str(e)`. -/
structure PyExn where
  kind : String
  msg : String
deriving DecidableEq

/-- Outcome of a symbol processor when it returns normally. -/
inductive ProcResult where
  | single : TradeResult → ProcResult
  | multi : List TradeResult → ProcResult
deriving DecidableEq

/-- Source: `ExecutionSummary` (trading_bot.py dataclass). -/
structure ExecutionSummary where
  total_symbols : ℕ
  successful_trades : ℕ
  failed_trades : ℕ
  trade_results : List TradeResult
deriving DecidableEq

/-- The pure format part of `TradingBot._validate_symbol` (trading_bot.py
lines 437-463): nonempty, uppercase alphabetic only, and 1 to 5 characters
long. -/
def symbol_format_valid (s : String) : Bool :=
  !(s = "") && (pyIsUpper s && pyIsAlphaStr s) && (1 ≤ s.length && s.length ≤ 5)

/-- Source: `TradingBot._validate_symbol` (trading_bot.py lines 428-500).
After the format checks, dry-run mode accepts the symbol; otherwise a
price fetch is attempted (`priceOf`): a nonpositive price rejects the
symbol, a fetch failure accepts it (market may be closed). -/
def validate_symbol (dryRun : Bool) (priceOf : String → Except String ℚ) (s : String) : Bool :=
  if s = "" then false
  else if !pyIsUpper s || !pyIsAlphaStr s then false
  else if s.length < 1 || s.length > 5 then false
  else if dryRun then true
  else
    match priceOf s with
    | Except.ok p => if p ≤ 0 then false else true
    | Except.error _ => true

/-- Source: the failed `TradeResult` synthesized by the per-symbol
exception handler of `execute_trading_cycle` (trading_bot.py lines
396-407). -/
def synth_failed_result (today now : ℤ) (s : String) (e : PyExn) : TradeResult :=
  { symbol := s, success := false, order_id := none, short_strike := 0,
    long_strike := 0, expiration := today, quantity := 0, filled_price := none,
    error_message := some ("Unexpected error: " ++ e.kind ++ ": " ++ e.msg),
    timestamp := now }

/-- The per-symbol step of the processing loop (trading_bot.py lines
348-408): one result appended, a ladder list extended, or a synthesized
failure on an uncaught exception. -/
def run_symbol (today now : ℤ) (process : String → Except PyExn ProcResult)
    (s : String) : List TradeResult :=
  match process s with
  | Except.ok (ProcResult.single r) => [r]
  | Except.ok (ProcResult.multi rs) => rs
  | Except.error e => [synth_failed_result today now s e]

/-- The value of `run_symbol` when every processor outcome is a single
result or an exception (used to restate the cycle as a map). -/
def single_result (today now : ℤ) (process : String → Except PyExn ProcResult)
    (s : String) : TradeResult :=
  match process s with
  | Except.ok (ProcResult.single r) => r
  | Except.ok (ProcResult.multi _) => synth_failed_result today now s ⟨"", ""⟩
  | Except.error e => synth_failed_result today now s e

/-- Source: `TradingBot.execute_trading_cycle` (trading_bot.py lines
284-426): filter symbols through `_validate_symbol`; when no symbol
survives, return a summary counting every configured symbol as failed with
an empty result list; otherwise process each valid symbol, flatten the
per-symbol results and fold the counts. -/
def execute_trading_cycle (dryRun : Bool) (priceOf : String → Except String ℚ)
    (process : String → Except PyExn ProcResult) (today now : ℤ)
    (symbols : List String) : ExecutionSummary :=
  let validSymbols := symbols.filter (validate_symbol dryRun priceOf)
  if validSymbols.isEmpty then
    { total_symbols := symbols.length, successful_trades := 0,
      failed_trades := symbols.length, trade_results := [] }
  else
    let results := (validSymbols.map (run_symbol today now process)).flatten
    let successful := results.countP (fun r => r.success)
    { total_symbols := symbols.length, successful_trades := successful,
      failed_trades := results.length - successful, trade_results := results }

instance (t : TradeResult) : Decidable (trade_result_invariant t) := by
  unfold trade_result_invariant
  infer_instance

instance (r : OrderResult) : Decidable (order_result_well_formed r) := by
  unfold order_result_well_formed
  infer_instance

/-! ## Helper lemmas -/

theorem foldl_max_choice (xs : List ℚ) (a : ℚ) : xs.foldl max a = a ∨ xs.foldl max a ∈ xs := by
  induction xs generalizing a with
  | nil => exact Or.inl rfl
  | cons x xs ih =>
    rcases ih (max a x) with h | h
    · rcases max_choice a x with hm | hm
      · exact Or.inl (by rw [List.foldl_cons, h, hm])
      · exact Or.inr (by rw [List.foldl_cons, h, hm]; exact List.mem_cons_self x xs)
    · exact Or.inr (List.mem_cons_of_mem x h)

theorem le_foldl_max (xs : List ℚ) (a : ℚ) : a ≤ xs.foldl max a := by
  induction xs generalizing a with
  | nil => exact le_refl a
  | cons x xs ih => exact le_trans (le_max_left a x) (ih (max a x))

theorem mem_le_foldl_max (xs : List ℚ) (a : ℚ) : ∀ s ∈ xs, s ≤ xs.foldl max a := by
  induction xs generalizing a with
  | nil => intro s hs; cases hs
  | cons x xs ih =>
    intro s hs
    rcases List.mem_cons.mp hs with h | h
    · subst h
      exact le_trans (le_max_right a s) (le_foldl_max xs (max a s))
    · exact ih (max a x) s h

theorem pyListMax_eq_some_iff (l : List ℚ) (m : ℚ) :
    pyListMax l = some m ↔ m ∈ l ∧ ∀ s ∈ l, s ≤ m := by
  constructor
  · intro h
    cases l with
    | nil => cases h
    | cons x xs =>
      simp only [pyListMax, Option.some.injEq] at h
      subst h
      refine ⟨?_, ?_⟩
      · rcases foldl_max_choice xs x with h | h
        · rw [h]; exact List.mem_cons_self x xs
        · exact List.mem_cons_of_mem x h
      · intro s hs
        rcases List.mem_cons.mp hs with h | h
        · subst h; exact le_foldl_max xs s
        · exact mem_le_foldl_max xs x s h
  · rintro ⟨hm, hub⟩
    cases l with
    | nil => cases hm
    | cons x xs =>
      simp only [pyListMax, Option.some.injEq]
      have h1 : xs.foldl max x ≤ m := by
        rcases foldl_max_choice xs x with h | h
        · rw [h]; exact hub x (List.mem_cons_self x xs)
        · exact hub _ (List.mem_cons_of_mem x h)
      have h2 : m ≤ xs.foldl max x := by
        rcases List.mem_cons.mp hm with h | h
        · subst h; exact le_foldl_max xs m
        · exact mem_le_foldl_max xs x m h
      exact le_antisymm h1 h2

theorem pyListMax_mem (l : List ℚ) (m : ℚ) (h : pyListMax l = some m) : m ∈ l :=
  ((pyListMax_eq_some_iff l m).mp h).1

theorem pyListMin_mem (l : List ℚ) (m : ℚ) (h : pyListMin l = some m) : m ∈ l := by
  cases l with
  | nil => cases h
  | cons x xs =>
    simp only [pyListMin, Option.some.injEq] at h
    subst h
    have : ∀ (ys : List ℚ) (a : ℚ), ys.foldl min a = a ∨ ys.foldl min a ∈ ys := by
      intro ys
      induction ys with
      | nil => exact fun a => Or.inl rfl
      | cons y ys ih =>
        intro a
        rcases ih (min a y) with h | h
        · rcases min_choice a y with hm | hm
          · exact Or.inl (by rw [List.foldl_cons, h, hm])
          · exact Or.inr (by rw [List.foldl_cons, h, hm]; exact List.mem_cons_self y ys)
        · exact Or.inr (List.mem_cons_of_mem y h)
    rcases this xs x with h | h
    · rw [h]; exact List.mem_cons_self x xs
    · exact List.mem_cons_of_mem x h

/-! ## Claim C7: snapping below -/

/-- C7 counterexample: the claim "for every strike set S and target x on
which find_nearest_strike_below is defined, re-snapping its result is a
no-op" fails at S = [0], x = 1: the first snap is defined and returns 0,
but snapping 0 again hits the positivity guard of the source (line 172 of
strategy_calculator.py) and raises instead of returning 0. -/
theorem c7_snap_counterexample :
    find_nearest_strike_below 1 [0] = some 0 ∧ find_nearest_strike_below 0 [0] = none := by
  decide

/-- C7 (amended): snapping below is idempotent whenever the snapped value
is positive; in particular re-snapping is a no-op on every strike set of
positive strikes. -/
theorem c7_snap_below_idempotent (targetStrike y : ℚ) (availableStrikes : List ℚ)
    (h : find_nearest_strike_below targetStrike availableStrikes = some y) (hy : 0 < y) :
    find_nearest_strike_below y availableStrikes = some y := by
  unfold find_nearest_strike_below at h ⊢
  by_cases hne : availableStrikes.isEmpty
  · rw [if_pos hne] at h; cases h
  rw [if_neg hne] at h ⊢
  by_cases hpos : targetStrike ≤ 0
  · rw [if_pos hpos] at h; cases h
  rw [if_neg hpos] at h
  rw [if_neg (not_le.mpr hy)]
  have hspec := (pyListMax_eq_some_iff _ _).mp h
  have hmem : y ∈ availableStrikes := (List.mem_filter.mp hspec.1).1
  refine (pyListMax_eq_some_iff _ _).mpr ⟨?_, ?_⟩
  · exact List.mem_filter.mpr ⟨hmem, by simp⟩
  · intro s hs
    have := List.mem_filter.mp hs
    simpa using this.2

/-- C7 witness: re-snapping the snapped strike 95 (from target 97 over the
set [90, 95, 100]) is a no-op. -/
theorem c7_snap_witness :
    find_nearest_strike_below 97 [(90 : ℚ), 95, 100] = some 95 ∧
    find_nearest_strike_below 95 [(90 : ℚ), 95, 100] = some 95 := by
  have h1 : find_nearest_strike_below 97 [(90 : ℚ), 95, 100] = some 95 := by decide
  exact ⟨h1, c7_snap_below_idempotent 97 95 _ h1 (by decide)⟩

/-! ## Claim C6: ladder conservation -/

theorem ladder_loop_cons (perLeg remaining : ℤ) (i : ℕ) (e : ℤ) (rest : List ℤ) :
    ladder_loop perLeg remaining i (e :: rest) =
      if (if rest.isEmpty then remaining else min perLeg remaining) > 0 then
        (i + 1, e, if rest.isEmpty then remaining else min perLeg remaining) ::
          ladder_loop perLeg
            (remaining - if rest.isEmpty then remaining else min perLeg remaining) (i + 1) rest
      else ladder_loop perLeg remaining (i + 1) rest := rfl

theorem ladder_loop_sum (perLeg : ℤ) :
    ∀ (exps : List ℤ) (remaining : ℤ) (i : ℕ), exps ≠ [] → 0 ≤ remaining →
      ((ladder_loop perLeg remaining i exps).map (fun leg => leg.2.2)).sum = remaining := by
  intro exps
  induction exps with
  | nil => intro _ _ h _; cases h rfl
  | cons e rest ih =>
    intro remaining i _ hrem
    rw [ladder_loop_cons]
    cases hr : rest with
    | nil =>
      subst hr
      by_cases hpos : remaining > 0
      · simp only [List.isEmpty_nil, if_true, if_pos hpos]
        simp [ladder_loop]
      · have hz : remaining = 0 := le_antisymm (not_lt.mp hpos) hrem
        simp only [List.isEmpty_nil, if_true, if_neg hpos]
        simp [ladder_loop, hz]
    | cons r0 rest0 =>
      subst hr
      have hrest : r0 :: rest0 ≠ [] := List.cons_ne_nil r0 rest0
      have hrestE : (r0 :: rest0).isEmpty = false := rfl
      rw [hrestE]
      by_cases hpos : min perLeg remaining > 0
      · have hrem2 : 0 ≤ remaining - min perLeg remaining := by
          have := min_le_right perLeg remaining
          omega
        have hih := ih (remaining - min perLeg remaining) (i + 1) hrest hrem2
        simp only [Bool.false_eq_true, if_false, if_pos hpos, List.map_cons, List.sum_cons, hih]
        omega
      · have hih := ih remaining (i + 1) hrest hrem
        simp only [Bool.false_eq_true, if_false, if_neg hpos, hih]

theorem ladder_loop_pos (perLeg : ℤ) :
    ∀ (exps : List ℤ) (remaining : ℤ) (i : ℕ) (leg : ℕ × ℤ × ℤ),
      leg ∈ ladder_loop perLeg remaining i exps → 0 < leg.2.2 := by
  intro exps
  induction exps with
  | nil => intro _ _ _ h; cases h
  | cons e rest ih =>
    intro remaining i leg hmem
    rw [ladder_loop_cons] at hmem
    by_cases hpos : (if rest.isEmpty then remaining else min perLeg remaining) > 0
    · rw [if_pos hpos] at hmem
      rcases List.mem_cons.mp hmem with h | h
      · subst h; exact hpos
      · exact ih _ _ leg h
    · rw [if_neg hpos] at hmem
      exact ih _ _ leg hmem

/-- C6: for every shares_owned, a positive leg count and a nonnegative
coverage fraction, the ladder conserves contracts: the leg contracts sum to
total_contracts = floor(shares_owned * coverage / 100), and every emitted
leg carries a positive contract count (zero-contract legs are omitted). -/
theorem c6_ladder_conservation (coverage : ℚ) (numLegs sharesOwned : ℕ) (fromDate : ℤ)
    (hlegs : 1 ≤ numLegs) (hcov : 0 ≤ coverage) :
    ((calculate_ladder coverage numLegs sharesOwned fromDate).map (fun leg => leg.2.2)).sum =
        calculate_total_contracts coverage sharesOwned ∧
    ∀ leg ∈ calculate_ladder coverage numLegs sharesOwned fromDate, 0 < leg.2.2 := by
  have htot : 0 ≤ calculate_total_contracts coverage sharesOwned := by
    unfold calculate_total_contracts
    have h1 : (0 : ℚ) ≤ (sharesOwned : ℚ) * coverage / 100 := by positivity
    exact Int.floor_nonneg.mpr h1
  have hlen : (calculate_expirations numLegs fromDate).length = numLegs := by
    unfold calculate_expirations
    simp only [List.length_map, List.length_range]
  have hne : calculate_expirations numLegs fromDate ≠ [] := by
    intro h
    rw [h] at hlen
    simp at hlen
    omega
  exact ⟨ladder_loop_sum _ _ _ _ hne htot, fun leg h => ladder_loop_pos _ _ _ _ leg h⟩

/-- C6 witness: the spec scenario shares_owned = 1500, coverage 0.667,
5 legs: the ladder sums to 10 contracts. -/
theorem c6_ladder_witness :
    ((calculate_ladder (667 / 1000) 5 1500 0).map (fun leg => leg.2.2)).sum = 10 ∧
    calculate_total_contracts (667 / 1000) 1500 = 10 := by
  have htot : calculate_total_contracts (667 / 1000) 1500 = 10 := by
    unfold calculate_total_contracts
    norm_num [Int.floor_eq_iff]
  have h := c6_ladder_conservation (667 / 1000) 5 1500 0 (by norm_num) (by norm_num)
  exact ⟨by rw [h.1, htot], htot⟩

/-! ## Claim C9: iron condor strike ordering -/

theorem ic_below_le (target m : ℚ) (strikes : List ℚ)
    (h : ic_find_nearest_strike_below target strikes = some m) : m ≤ target ∧ m ∈ strikes := by
  unfold ic_find_nearest_strike_below at h
  have hmem := pyListMax_mem _ _ h
  have := List.mem_filter.mp hmem
  exact ⟨by simpa using this.2, this.1⟩

theorem ic_above_ge (target m : ℚ) (strikes : List ℚ)
    (h : ic_find_nearest_strike_above target strikes = some m) : target ≤ m ∧ m ∈ strikes := by
  unfold ic_find_nearest_strike_above at h
  have hmem := pyListMin_mem _ _ h
  have := List.mem_filter.mp hmem
  exact ⟨by simpa using this.2, this.1⟩

/-- C9: for a positive current price and positive spread offsets,
IronCondorCalculator.calculate_strikes either fails or returns strikes
satisfying put_long < put_short < price < call_short < call_long (so in
particular it fails whenever that ordering would be violated). -/
theorem c9_iron_condor_ordering (putOff callOff spreadWidth currentPrice : ℚ)
    (availableStrikes : List ℚ) (pl ps cs cl : ℚ)
    (hp : 0 < currentPrice) (hpo : 0 < putOff) (hco : 0 < callOff)
    (h : iron_condor_calculate_strikes putOff callOff spreadWidth currentPrice availableStrikes =
      some (pl, ps, cs, cl)) :
    pl < ps ∧ ps < currentPrice ∧ currentPrice < cs ∧ cs < cl := by
  unfold iron_condor_calculate_strikes at h
  split at h
  · exact Option.noConfusion h
  split at h
  · exact Option.noConfusion h
  rename_i ps0 hps
  split at h
  · exact Option.noConfusion h
  rename_i cs0 hcs
  split at h
  · exact Option.noConfusion h
  rename_i pl0 hpl
  split at h
  · exact Option.noConfusion h
  rename_i cl0 hcl
  split at h
  · exact Option.noConfusion h
  rename_i h1
  split at h
  · exact Option.noConfusion h
  rename_i h2
  obtain ⟨hpl', hps', hcs', hcl'⟩ : pl0 = pl ∧ ps0 = ps ∧ cs0 = cs ∧ cl0 = cl := by
    simpa using h
  subst hpl' hps' hcs' hcl'
  have hb := ic_below_le _ _ _ hps
  have ha := ic_above_ge _ _ _ hcs
  refine ⟨lt_of_not_ge h1, ?_, ?_, lt_of_not_ge fun hg => h2 hg⟩
  · have hlt : currentPrice * (1 - putOff / 100) < currentPrice := by nlinarith
    exact lt_of_le_of_lt hb.1 hlt
  · have hlt : currentPrice < currentPrice * (1 + callOff / 100) := by nlinarith
    exact lt_of_lt_of_le hlt ha.1

/-- C9 witness: with price 100, offsets 3 percent and spread width 5 over
strikes [90, 97, 103, 110] the calculator returns (90, 97, 103, 110) and
the ordering holds. -/
theorem c9_iron_condor_witness :
    iron_condor_calculate_strikes 3 3 5 100 [(90 : ℚ), 97, 103, 110] =
        some (90, 97, 103, 110) ∧
    (90 : ℚ) < 97 ∧ (97 : ℚ) < 100 ∧ (100 : ℚ) < 103 ∧ (103 : ℚ) < 110 := by
  have h : iron_condor_calculate_strikes 3 3 5 100 [(90 : ℚ), 97, 103, 110] =
      some (90, 97, 103, 110) := by
    norm_num [iron_condor_calculate_strikes, ic_find_nearest_strike_below,
      ic_find_nearest_strike_above, pyListMax, pyListMin]
  have ho := c9_iron_condor_ordering 3 3 5 100 [(90 : ℚ), 97, 103, 110] 90 97 103 110
    (by norm_num) (by norm_num) (by norm_num) h
  exact ⟨h, ho.1, ho.2.1, ho.2.2.1, ho.2.2.2⟩

/-! ## Claim C1: expiration rules -/

/-- C1 counterexample: day 0 is a Monday; for execution date 0 and offset 1
week the shared nearest-Friday rule of the spec yields day 4 (the Friday
before the Monday target, 3 days closer), but
StrategyCalculator.calculate_expiration_date returns day 11 (the Friday
after the target) — so calculate_expiration_date does not implement the
shared rule. -/
theorem c1_expiration_counterexample :
    weekday 0 = 0 ∧ calculate_expiration_date 0 1 = some 11 ∧
    spec_expiration_rule 0 7 = 4 := by
  decide

/-- C1 (amended): the collar-strategy calculators (Wheel, Butterfly,
MarriedPut, LongStraddle, IronButterfly, ShortStrangle, IronCondor, and
CoveredCall with its dead days_until_friday adjustment) all implement the
spec's shared nearest-Friday rule; StrategyCalculator.calculate_expiration_date
does not: for a positive offset it returns the Friday at or after
target = execution_date + 7 * offset_weeks, never the earlier Friday. -/
theorem c1_expiration_rules :
    (∀ fromDate expirationDays : ℤ,
      nearest_friday_expiration fromDate expirationDays =
        spec_expiration_rule fromDate expirationDays) ∧
    (∀ expirationDays fromDate : ℤ,
      covered_call_calculate_expiration expirationDays fromDate =
        spec_expiration_rule fromDate expirationDays) ∧
    (∀ executionDate offsetWeeks : ℤ, 0 < offsetWeeks →
      calculate_expiration_date executionDate offsetWeeks =
        some (next_friday_on_or_after (executionDate + 7 * offsetWeeks))) := by
  refine ⟨?_, ?_, ?_⟩
  · intro fromDate expirationDays
    simp only [nearest_friday_expiration, spec_expiration_rule, friday_strictly_after]
    split_ifs <;> omega
  · intro expirationDays fromDate
    simp only [covered_call_calculate_expiration, spec_expiration_rule, friday_strictly_after]
    split_ifs <;> omega
  · intro executionDate offsetWeeks hw
    simp only [calculate_expiration_date, next_friday_on_or_after]
    rw [if_neg (by omega)]
    split_ifs with h
    · simp only [Option.some.injEq]
      omega
    · rfl

/-- C1 witness: concrete instances of the amended statement, including the
spec scenario of a Tuesday execution date (day 1) with a one-week offset
landing on the Friday ten days later (day 11). -/
theorem c1_expiration_witness :
    nearest_friday_expiration 1 7 = spec_expiration_rule 1 7 ∧
    covered_call_calculate_expiration 10 0 = spec_expiration_rule 0 10 ∧
    calculate_expiration_date 1 1 = some 11 := by
  refine ⟨c1_expiration_rules.1 1 7, c1_expiration_rules.2.1 10 0, ?_⟩
  rw [c1_expiration_rules.2.2 1 1 (by decide)]
  decide

/-! ## Claims C3, C4, C8: order retry controller -/

theorem retry_loop_all_retryable (sym ts : String) (submit : ℕ → SubmitOutcome)
    (maxRetries : ℕ) (rlast : OrderResult)
    (hfail : ∀ n, 1 ≤ n → n ≤ maxRetries → ∃ r, submit n = SubmitOutcome.res r ∧
      r.success = false ∧ is_retryable_error r.error_message = true)
    (hlast : submit maxRetries = SubmitOutcome.res rlast) :
    ∀ (k attempt : ℕ) (lastErr : Option String), maxRetries - attempt = k →
      attempt < maxRetries →
      retry_order_loop false sym ts submit maxRetries attempt lastErr =
        (max_retries_exceeded_result maxRetries rlast.error_message, maxRetries - attempt,
          (List.range' attempt (maxRetries - 1 - attempt)).map (fun i => 2 ^ i)) := by
  intro k
  induction k with
  | zero => intro attempt lastErr hk hlt; omega
  | succ k ih =>
    intro attempt lastErr hk hlt
    obtain ⟨r, hr, hsucc, hretry⟩ := hfail (attempt + 1) (by omega) (by omega)
    rw [retry_order_loop.eq_def, if_pos hlt]
    simp only [Bool.false_eq_true, if_false, hr, hsucc, hretry, Bool.not_true]
    by_cases hlt2 : attempt + 1 < maxRetries
    · rw [if_pos hlt2, ih (attempt + 1) r.error_message (by omega) hlt2]
      simp only [Prod.mk.injEq, true_and]
      refine ⟨by omega, ?_⟩
      have hc : maxRetries - 1 - attempt = (maxRetries - 1 - (attempt + 1)) + 1 := by omega
      rw [hc, List.range'_succ, List.map_cons]
      simp only [Nat.add_sub_cancel]
    · have ha : attempt + 1 = maxRetries := by omega
      rw [if_neg hlt2, retry_order_loop.eq_def, if_neg (by omega)]
      have hrr : r = rlast := by
        rw [ha] at hr
        rw [hr] at hlast
        exact (SubmitOutcome.res.injEq _ _).mp hlast
      subst hrr
      simp only [Prod.mk.injEq, true_and]
      refine ⟨by omega, ?_⟩
      have hc : maxRetries - 1 - attempt = 0 := by omega
      rw [hc]
      rfl

/-- C3: when validation passes and every submission attempt returns a
retryable failure, retry_order makes exactly max_retries attempts, sleeps
exactly max_retries - 1 times with delays 2^0, 2^1, ..., 2^(max_retries-2)
seconds (no sleep after the final attempt), and returns the failed
OrderResult with status max_retries_exceeded carrying the last attempt's
error message. -/
theorem c3_retry_bound (ts : String) (today : ℤ) (order : SpreadOrder)
    (submit : ℕ → SubmitOutcome) (maxRetries : ℕ) (rlast : OrderResult)
    (hval : (validate_order today order).1 = true)
    (hmr : 1 ≤ maxRetries)
    (hfail : ∀ n, 1 ≤ n → n ≤ maxRetries → ∃ r, submit n = SubmitOutcome.res r ∧
      r.success = false ∧ is_retryable_error r.error_message = true)
    (hlast : submit maxRetries = SubmitOutcome.res rlast) :
    retry_order false ts today order submit maxRetries =
      (max_retries_exceeded_result maxRetries rlast.error_message, maxRetries,
        (List.range (maxRetries - 1)).map (fun i => 2 ^ i)) := by
  unfold retry_order
  cases hv : validate_order today order with
  | mk b msg =>
    rw [hv] at hval
    cases b with
    | false => cases hval
    | true =>
      have h := retry_loop_all_retryable order.symbol ts submit maxRetries rlast hfail hlast
        maxRetries 0 none (by omega) (by omega)
      rw [h]
      simp only [Nat.sub_zero, List.range_eq_range']

/-- C3 witness: a valid order whose submission always fails with a
retryable "timeout" message, max_retries = 3: three attempts, two sleeps of
1 and 2 seconds, and a max_retries_exceeded result carrying "timeout". -/
theorem c3_retry_witness :
    retry_order false "T" 0 ⟨"AAPL", 95, 90, 0, 1⟩
        (fun _ => SubmitOutcome.res ⟨false, none, some "error", some "timeout"⟩) 3 =
      (max_retries_exceeded_result 3 (some "timeout"), 3, [1, 2]) := by
  have h := c3_retry_bound "T" 0 ⟨"AAPL", 95, 90, 0, 1⟩
    (fun _ => SubmitOutcome.res ⟨false, none, some "error", some "timeout"⟩) 3
    ⟨false, none, some "error", some "timeout"⟩
    (by norm_num [validate_order, pyIsUpper]; decide) (by decide)
    (fun n h1 h2 => ⟨⟨false, none, some "error", some "timeout"⟩, rfl, rfl, by decide⟩)
    rfl
  rw [h]
  rfl

theorem is_retryable_of_not_terminal (m : Option String) (h : spec_is_terminal m = false) :
    is_retryable_error m = true := by
  cases m with
  | none => rfl
  | some s =>
    by_cases hs : s = ""
    · subst hs; rfl
    · simp only [spec_is_terminal] at h
      simp only [is_retryable_error, if_neg hs, pyContainsSub] at h ⊢
      rw [h]
      rfl

theorem not_retryable_of_terminal (m : Option String) (h : spec_is_terminal m = true) :
    is_retryable_error m = false := by
  cases m with
  | none => cases h
  | some s =>
    by_cases hs : s = ""
    · subst hs; cases h
    · simp only [spec_is_terminal] at h
      simp only [is_retryable_error, if_neg hs, pyContainsSub] at h ⊢
      rw [h]
      rfl

/-- C4: a submission failure whose message contains one of the seven
non-retryable keywords (case-insensitively) is terminal: retry_order
returns that failure after exactly one attempt with no sleeps, regardless
of max_retries; and every other message, as well as an absent message, is
classified retryable by _is_retryable_error. -/
theorem c4_terminal_short_circuit :
    (∀ (ts : String) (today : ℤ) (order : SpreadOrder) (submit : ℕ → SubmitOutcome)
      (maxRetries : ℕ) (r : OrderResult),
      (validate_order today order).1 = true → 1 ≤ maxRetries →
      submit 1 = SubmitOutcome.res r → r.success = false →
      spec_is_terminal r.error_message = true →
      retry_order false ts today order submit maxRetries = (r, 1, [])) ∧
    (∀ m, spec_is_terminal m = false → is_retryable_error m = true) ∧
    is_retryable_error none = true := by
  refine ⟨?_, is_retryable_of_not_terminal, rfl⟩
  intro ts today order submit maxRetries r hval hmr hsub hfailr hterm
  unfold retry_order
  cases hv : validate_order today order with
  | mk b msg =>
    rw [hv] at hval
    cases b with
    | false => cases hval
    | true =>
      rw [retry_order_loop.eq_def, if_pos (by omega : (0 : ℕ) < maxRetries)]
      simp only [Bool.false_eq_true, if_false, Nat.zero_add, hsub, hfailr,
        not_retryable_of_terminal r.error_message hterm, Bool.not_false, if_true]

/-- C4 witness: a broker failure whose message contains "REJECTED" makes
exactly one attempt with max_retries = 5 and is returned unchanged. -/
theorem c4_terminal_witness :
    retry_order false "T" 0 ⟨"AAPL", 95, 90, 0, 1⟩
        (fun _ => SubmitOutcome.res ⟨false, none, some "rejected",
          some "Order REJECTED by broker"⟩) 5 =
      (⟨false, none, some "rejected", some "Order REJECTED by broker"⟩, 1, []) :=
  c4_terminal_short_circuit.1 "T" 0 ⟨"AAPL", 95, 90, 0, 1⟩ _ 5
    ⟨false, none, some "rejected", some "Order REJECTED by broker"⟩
    (by norm_num [validate_order, pyIsUpper]; decide) (by decide) rfl rfl (by decide)

/-- C8: when validate_order rejects the order, retry_order returns a failed
OrderResult with status validation_failed carrying the validation message,
with zero submission attempts and zero sleeps. -/
theorem c8_validation_short_circuit (dryRun : Bool) (ts : String) (today : ℤ)
    (order : SpreadOrder) (submit : ℕ → SubmitOutcome) (maxRetries : ℕ)
    (msg : Option String) (hval : validate_order today order = (false, msg)) :
    retry_order dryRun ts today order submit maxRetries =
      ({ success := false, order_id := none, status := some "validation_failed",
         error_message := msg }, 0, []) := by
  unfold retry_order
  rw [hval]

/-- C8 witness: an order with a nonpositive short strike is rejected with
the validation message and no attempt or sleep is made. -/
theorem c8_validation_witness :
    retry_order false "T" 0 ⟨"AAPL", 0, 90, 0, 1⟩
        (fun _ => SubmitOutcome.res ⟨true, some "id", none, none⟩) 3 =
      ({ success := false, order_id := none, status := some "validation_failed",
         error_message := some "Short strike must be positive" }, 0, []) :=
  c8_validation_short_circuit false "T" 0 ⟨"AAPL", 0, 90, 0, 1⟩ _ 3
    (some "Short strike must be positive")
    (by norm_num [validate_order, pyIsUpper]; decide)

/-! ## Claim C2: the TradeResult invariant -/

/-- C2 counterexample: the Tradier client can build a success OrderResult
with an absent order id (tradier_client.py line 800, when the API response
carries no id); the wheel processor copies it into a TradeResult with
success = true and no order_id, violating the invariant. -/
theorem c2_invariant_counterexample :
    ¬trade_result_invariant
      (wheel_trade_result "AAPL" 100 4 1 0 (tradier_submit_success none)) := by
  decide

theorem validate_order_failure_msg (today : ℤ) (order : SpreadOrder) (msg : Option String)
    (h : validate_order today order = (false, msg)) : msg.isSome = true := by
  unfold validate_order at h
  split_ifs at h <;>
    simp only [Prod.mk.injEq] at h
  all_goals first
    | (rw [← h.2]; rfl)
    | (exact absurd h.1 (by simp))

theorem retry_order_loop_well_formed (dryRun : Bool) (sym ts : String)
    (submit : ℕ → SubmitOutcome) (maxRetries : ℕ)
    (hwf : ∀ n r0, submit n = SubmitOutcome.res r0 → order_result_well_formed r0) :
    ∀ (k attempt : ℕ) (lastErr : Option String), maxRetries - attempt ≤ k →
      order_result_well_formed
        (retry_order_loop dryRun sym ts submit maxRetries attempt lastErr).1 := by
  intro k
  induction k with
  | zero =>
    intro attempt lastErr hk
    rw [retry_order_loop.eq_def, if_neg (by omega)]
    constructor
    · intro h; cases h
    · intro _; exact ⟨rfl, rfl⟩
  | succ k ih =>
    intro attempt lastErr hk
    rw [retry_order_loop.eq_def]
    by_cases hlt : attempt < maxRetries
    · rw [if_pos hlt]
      cases dryRun with
      | true =>
        simp only [if_true]
        constructor
        · intro _; exact ⟨rfl, rfl⟩
        · intro h; cases h
      | false =>
        simp only [Bool.false_eq_true, if_false]
        cases hsub : submit (attempt + 1) with
        | res r =>
          by_cases hs : r.success
          · simpa [hs] using hwf _ _ hsub
          · simp only [hs, Bool.false_eq_true, if_false]
            by_cases hretry : is_retryable_error r.error_message
            · simp only [hretry, Bool.not_true, Bool.false_eq_true, if_false]
              by_cases hlt2 : attempt + 1 < maxRetries
              · simpa [hlt2] using ih (attempt + 1) r.error_message (by omega)
              · simpa [hlt2] using ih (attempt + 1) r.error_message (by omega)
            · simp only [Bool.not_eq_true] at hretry
              simpa [hretry] using hwf _ _ hsub
        | exn msg =>
          by_cases hlt2 : attempt + 1 < maxRetries
          · simpa [hlt2] using ih (attempt + 1) (some msg) (by omega)
          · simpa [hlt2] using ih (attempt + 1) (some msg) (by omega)
    · rw [if_neg hlt]
      constructor
      · intro h; cases h
      · intro _; exact ⟨rfl, rfl⟩

/-- C2 (amended): provided the broker OrderResult is well-formed (success
carries an order id and no error message; failure carries an error message
and no order id), every TradeResult constructed by the wheel processor,
the covered-call processor, or submit_order_with_error_handling from the
retry controller's result satisfies the invariant; and the retry
controller's own result is well-formed whenever every broker submission
outcome is (its validation_failed, max_retries_exceeded and dry-run
results are well-formed unconditionally). -/
theorem c2_trade_result_invariant :
    (∀ (sym : String) (strike : ℚ) (exp nq ts : ℤ) (r : OrderResult),
      order_result_well_formed r →
      trade_result_invariant (wheel_trade_result sym strike exp nq ts r) ∧
      trade_result_invariant (covered_call_trade_result sym strike exp nq ts r)) ∧
    (∀ (sym : String) (shortS longS : ℚ) (exp q ts : ℤ) (r : OrderResult),
      order_result_well_formed r →
      trade_result_invariant (trade_result_of_order_result sym shortS longS exp q ts r)) ∧
    (∀ (dryRun : Bool) (ts : String) (today : ℤ) (order : SpreadOrder)
      (submit : ℕ → SubmitOutcome) (maxRetries : ℕ),
      (∀ n r0, submit n = SubmitOutcome.res r0 → order_result_well_formed r0) →
      order_result_well_formed (retry_order dryRun ts today order submit maxRetries).1) := by
  refine ⟨?_, ?_, ?_⟩
  · intro sym strike exp nq ts r hr
    obtain ⟨hs, hf⟩ := hr
    cases hrs : r.success with
    | true =>
      obtain ⟨hid, herr⟩ := hs hrs
      constructor
      · unfold trade_result_invariant wheel_trade_result
        simp [hrs, hid, herr]
      · unfold trade_result_invariant covered_call_trade_result
        simp [hrs, hid, herr]
    | false =>
      obtain ⟨hid, herr⟩ := hf hrs
      constructor
      · unfold trade_result_invariant wheel_trade_result
        simp [hrs, hid, herr]
      · unfold trade_result_invariant covered_call_trade_result
        simp [hrs, hid, herr]
  · intro sym shortS longS exp q ts r hr
    obtain ⟨hs, hf⟩ := hr
    cases hrs : r.success with
    | true =>
      obtain ⟨hid, herr⟩ := hs hrs
      unfold trade_result_invariant trade_result_of_order_result
      simp [hrs, hid, herr]
    | false =>
      obtain ⟨hid, herr⟩ := hf hrs
      unfold trade_result_invariant trade_result_of_order_result
      simp [hrs, hid, herr]
  · intro dryRun ts today order submit maxRetries hwf
    unfold retry_order
    cases hv : validate_order today order with
    | mk b msg =>
      cases b with
      | false =>
        have hmsg := validate_order_failure_msg today order msg hv
        constructor
        · intro h; cases h
        · intro _; exact ⟨rfl, hmsg⟩
      | true =>
        exact retry_order_loop_well_formed dryRun order.symbol ts submit maxRetries hwf
          maxRetries 0 none (by omega)

/-- C2 witness: a well-formed broker success with order id "12345" yields
invariant-satisfying wheel and covered-call TradeResults. -/
theorem c2_invariant_witness :
    trade_result_invariant
      (wheel_trade_result "AAPL" 100 4 1 0 ⟨true, some "12345", some "submitted", none⟩) ∧
    trade_result_invariant
      (covered_call_trade_result "AAPL" 100 4 1 0 ⟨true, some "12345", some "submitted", none⟩) :=
  c2_trade_result_invariant.1 "AAPL" 100 4 1 0 ⟨true, some "12345", some "submitted", none⟩
    (by decide)

/-! ## Claims C5 and C10: batch orchestrator -/

theorem validate_symbol_of_format_invalid (dryRun : Bool)
    (priceOf : String → Except String ℚ) (s : String)
    (h : symbol_format_valid s = false) : validate_symbol dryRun priceOf s = false := by
  unfold validate_symbol
  by_cases h1 : s = ""
  · rw [if_pos h1]
  rw [if_neg h1]
  by_cases h2 : !pyIsUpper s || !pyIsAlphaStr s
  · rw [if_pos h2]
  rw [if_neg h2]
  by_cases h3 : s.length < 1 || s.length > 5
  · rw [if_pos h3]
  exfalso
  simp only [Bool.or_eq_true, Bool.not_eq_true', not_or, Bool.not_eq_false,
    decide_eq_true_iff] at h2 h3
  have hfv : symbol_format_valid s = true := by
    simp only [symbol_format_valid, Bool.and_eq_true, Bool.not_eq_true',
      decide_eq_false_iff_not, decide_eq_true_iff]
    refine ⟨⟨h1, h2.1, h2.2⟩, ?_, ?_⟩ <;> omega
  rw [h] at hfv
  cases hfv

theorem flatten_run_symbol (today now : ℤ) (process : String → Except PyExn ProcResult) :
    ∀ l : List String, (∀ s ∈ l, ∀ rs, process s ≠ Except.ok (ProcResult.multi rs)) →
      (l.map (run_symbol today now process)).flatten = l.map (single_result today now process) := by
  intro l
  induction l with
  | nil => intro _; rfl
  | cons s rest ih =>
    intro hs
    simp only [List.map_cons, List.flatten_cons,
      ih (fun x hx => hs x (List.mem_cons_of_mem s hx))]
    have hone : run_symbol today now process s = [single_result today now process s] := by
      unfold run_symbol single_result
      cases hp : process s with
      | error e => rfl
      | ok pr =>
        cases pr with
        | single r => rfl
        | multi rs => exact absurd hp (hs s (List.mem_cons_self s rest) rs)
    rw [hone]
    rfl

theorem execute_cycle_results_eq_map (dryRun : Bool) (priceOf : String → Except String ℚ)
    (process : String → Except PyExn ProcResult) (today now : ℤ) (symbols : List String)
    (hvalid : ∀ s ∈ symbols, validate_symbol dryRun priceOf s = true)
    (hsingle : ∀ s ∈ symbols, ∀ rs, process s ≠ Except.ok (ProcResult.multi rs))
    (hne : symbols ≠ []) :
    (execute_trading_cycle dryRun priceOf process today now symbols).trade_results =
      symbols.map (single_result today now process) := by
  unfold execute_trading_cycle
  have hfilter : symbols.filter (validate_symbol dryRun priceOf) = symbols :=
    List.filter_eq_self.mpr hvalid
  rw [hfilter]
  rw [if_neg (by simpa [List.isEmpty_iff] using hne)]
  exact flatten_run_symbol today now process symbols hsingle

/-- C5: with format-valid symbols and single-result strategy processors, a
symbol k whose processor raises is converted into a synthesized failed
TradeResult with message "Unexpected error: <Kind>: <msg>"; the summary
still contains one result per symbol, failed_trades is at least 1, and
every position holding a symbol other than k carries the same result it
would carry under any processor that agrees outside k. -/
theorem c5_batch_isolation (dryRun : Bool) (priceOf : String → Except String ℚ)
    (process : String → Except PyExn ProcResult) (today now : ℤ)
    (symbols : List String) (k : String) (e : PyExn)
    (hvalid : ∀ s ∈ symbols, validate_symbol dryRun priceOf s = true)
    (hsingle : ∀ s ∈ symbols, ∀ rs, process s ≠ Except.ok (ProcResult.multi rs))
    (hk : k ∈ symbols) (hraise : process k = Except.error e) :
    (execute_trading_cycle dryRun priceOf process today now symbols).trade_results.length =
        symbols.length ∧
    synth_failed_result today now k e ∈
        (execute_trading_cycle dryRun priceOf process today now symbols).trade_results ∧
    1 ≤ (execute_trading_cycle dryRun priceOf process today now symbols).failed_trades ∧
    (∀ process2 : String → Except PyExn ProcResult,
      (∀ s, s ≠ k → process2 s = process s) →
      (∀ s ∈ symbols, ∀ rs, process2 s ≠ Except.ok (ProcResult.multi rs)) →
      ∀ i : ℕ, symbols[i]? ≠ some k →
        (execute_trading_cycle dryRun priceOf process2 today now symbols).trade_results[i]? =
        (execute_trading_cycle dryRun priceOf process today now symbols).trade_results[i]?) := by
  have hne : symbols ≠ [] := fun h => by rw [h] at hk; cases hk
  have hmap := execute_cycle_results_eq_map dryRun priceOf process today now symbols
    hvalid hsingle hne
  have hsk : single_result today now process k = synth_failed_result today now k e := by
    unfold single_result
    rw [hraise]
  have hmem : synth_failed_result today now k e ∈
      (execute_trading_cycle dryRun priceOf process today now symbols).trade_results := by
    rw [hmap, ← hsk]
    exact List.mem_map_of_mem _ hk
  refine ⟨by rw [hmap, List.length_map], hmem, ?_, ?_⟩
  · have hcy : execute_trading_cycle dryRun priceOf process today now symbols =
        { total_symbols := symbols.length,
          successful_trades :=
            (symbols.map (single_result today now process)).countP (fun r => r.success),
          failed_trades := (symbols.map (single_result today now process)).length -
            (symbols.map (single_result today now process)).countP (fun r => r.success),
          trade_results := symbols.map (single_result today now process) } := by
      unfold execute_trading_cycle
      rw [List.filter_eq_self.mpr hvalid, if_neg (by simpa [List.isEmpty_iff] using hne),
        flatten_run_symbol today now process symbols hsingle]
    rw [hmap] at hmem
    rw [hcy]
    show 1 ≤ (symbols.map (single_result today now process)).length -
      (symbols.map (single_result today now process)).countP (fun r => r.success)
    have hle := List.countP_le_length (fun r => r.success)
      (l := symbols.map (single_result today now process))
    have hneq : (symbols.map (single_result today now process)).countP (fun r => r.success) ≠
        (symbols.map (single_result today now process)).length := by
      intro h
      have hall := List.countP_eq_length.mp h
      have := hall _ hmem
      simp [synth_failed_result] at this
    omega
  · intro process2 hagree hsingle2 i hik
    have hmap2 := execute_cycle_results_eq_map dryRun priceOf process2 today now symbols
      hvalid hsingle2 hne
    rw [hmap, hmap2, List.getElem?_map, List.getElem?_map]
    cases hsi : symbols[i]? with
    | none => rfl
    | some s =>
      have hsk2 : s ≠ k := fun h => hik (by rw [hsi, h])
      have hsr : single_result today now process2 s = single_result today now process s := by
        unfold single_result
        rw [hagree s hsk2]
      simp [hsr]

/-- C5 witness: two format-valid symbols in dry-run mode where the
processor for MSFT raises ValueError("boom"): the summary still has two
results, at least one failed trade, and the MSFT slot carries the
synthesized failure. -/
theorem c5_batch_witness :
    (execute_trading_cycle true (fun _ => Except.error "x")
      (fun s => if s = "MSFT" then Except.error ⟨"ValueError", "boom"⟩
        else Except.ok (ProcResult.single ⟨s, true, some "id1", 100, 0, 4, 1, none, none, 0⟩))
      0 0 ["AAPL", "MSFT"]).trade_results.length = 2 ∧
    synth_failed_result 0 0 "MSFT" ⟨"ValueError", "boom"⟩ ∈
      (execute_trading_cycle true (fun _ => Except.error "x")
        (fun s => if s = "MSFT" then Except.error ⟨"ValueError", "boom"⟩
          else Except.ok (ProcResult.single ⟨s, true, some "id1", 100, 0, 4, 1, none, none, 0⟩))
        0 0 ["AAPL", "MSFT"]).trade_results ∧
    1 ≤ (execute_trading_cycle true (fun _ => Except.error "x")
      (fun s => if s = "MSFT" then Except.error ⟨"ValueError", "boom"⟩
        else Except.ok (ProcResult.single ⟨s, true, some "id1", 100, 0, 4, 1, none, none, 0⟩))
      0 0 ["AAPL", "MSFT"]).failed_trades := by
  have h := c5_batch_isolation true (fun _ => Except.error "x")
    (fun s => if s = "MSFT" then Except.error ⟨"ValueError", "boom"⟩
      else Except.ok (ProcResult.single ⟨s, true, some "id1", 100, 0, 4, 1, none, none, 0⟩))
    0 0 ["AAPL", "MSFT"] "MSFT" ⟨"ValueError", "boom"⟩
    (by decide)
    (by
      intro s hs rs hcontra
      fin_cases hs <;> simp at hcontra)
    (by decide) rfl
  exact ⟨h.1.trans rfl, h.2.1, h.2.2.1⟩

/-- C10: a symbol that fails the 1-to-5-uppercase-letters format check is
rejected by _validate_symbol in every mode and so contributes no
TradeResult; when every configured symbol fails the format check and at
least one symbol is configured, the cycle summary counts every configured
symbol as failed with an empty result list, so failed_trades differs from
the number of unsuccessful entries in trade_results. -/
theorem c10_format_invalid_symbols (dryRun : Bool) (priceOf : String → Except String ℚ)
    (process : String → Except PyExn ProcResult) (today now : ℤ) (symbols : List String)
    (hne : symbols ≠ [])
    (hbad : ∀ s ∈ symbols, symbol_format_valid s = false) :
    (∀ (dr : Bool) (pr : String → Except String ℚ) (s : String),
      symbol_format_valid s = false → validate_symbol dr pr s = false) ∧
    execute_trading_cycle dryRun priceOf process today now symbols =
      { total_symbols := symbols.length, successful_trades := 0,
        failed_trades := symbols.length, trade_results := [] } ∧
    (execute_trading_cycle dryRun priceOf process today now symbols).failed_trades ≠
      ((execute_trading_cycle dryRun priceOf process today now symbols).trade_results.filter
        (fun r => !r.success)).length := by
  have hfilter : symbols.filter (validate_symbol dryRun priceOf) = [] :=
    List.filter_eq_nil_iff.mpr fun s hs => by
      rw [validate_symbol_of_format_invalid dryRun priceOf s (hbad s hs)]
      simp
  have hcy : execute_trading_cycle dryRun priceOf process today now symbols =
      { total_symbols := symbols.length, successful_trades := 0,
        failed_trades := symbols.length, trade_results := [] } := by
    unfold execute_trading_cycle
    rw [hfilter]
    rfl
  refine ⟨validate_symbol_of_format_invalid, hcy, ?_⟩
  rw [hcy]
  have hpos := List.length_pos.mpr hne
  simp only [List.filter_nil, List.length_nil]
  omega

/-- C10 witness: the single configured symbol "aapl" (lowercase, so
format-invalid) yields a summary with one failed trade and no trade
results. -/
theorem c10_format_witness :
    execute_trading_cycle true (fun _ => Except.error "x")
        (fun _ => Except.error ⟨"E", "m"⟩) 0 0 ["aapl"] =
      { total_symbols := 1, successful_trades := 0, failed_trades := 1,
        trade_results := [] } := by
  have h := c10_format_invalid_symbols true (fun _ => Except.error "x")
    (fun _ => Except.error ⟨"E", "m"⟩) 0 0 ["aapl"] (by decide) (by decide)
  simpa using h.2.1
